import Mathlib

/-!
Verification of the Log-Alarmer monitor (src/src/main.rs) against its
natural-language specification. The Rust program is shallowly embedded:
the inotify subsystem, the wall clock, and the SMTP transport are treated
as oracles whose outcomes are inputs to the embedded functions, and the
per-iteration state of `monitor_log` is threaded explicitly.
-/

namespace LogAlarmer

/-- Mirrors the Rust struct `LogConfig` (fields `id`, `path`). -/
structure LogConfig where
  id : String
  path : String
deriving Repr, DecidableEq

/-- Mirrors the Rust struct `EmailConfig`. Note the source field is spelled
`stmp`, not `smtp`. `count_threshold` is an `i32` and `time_threshold` an
`i64` in the source; both are modelled as `Int` with range side conditions
where they matter. -/
structure EmailConfig where
  username : String
  password : String
  stmp : String
  target : String
  count_threshold : Int
  time_threshold : Int
deriving Repr, DecidableEq

/-- Mirrors the Rust struct `Config`. -/
structure Config where
  log : LogConfig
  email : EmailConfig
deriving Repr, DecidableEq

/-- The Rust cast `t as usize` applied to an `i32` value on a 64-bit
target: sign-extend and reinterpret, i.e. reduce modulo 2^64. -/
def i32_as_usize (t : Int) : Nat := (t % (2:Int) ^ 64).toNat

/-- The three logical event classes distinguished by `monitor_log`:
`event.mask == MODIFY`, `event.mask == ATTRIB`, and the catch-all `else`
branch (deletion of the watched file). -/
inductive EventKind
  | modified
  | attribChanged
  | deleted
deriving Repr, DecidableEq

/-- One inotify event as consumed by the loop body, together with the
oracle outcome `armOk` of the `add_watch` call that the handler performs
when it re-arms the watch (irrelevant for `modified`). -/
structure ChangeEvent where
  kind : EventKind
  wd : Nat
  armOk : Bool
deriving Repr, DecidableEq

/-- Observable side effects of one event handler, in program order. -/
inductive Action
  | printed
  | slept (ms : Nat)
  | rmWatch (wd : Nat)
  | addWatch (path : String)
deriving Repr, DecidableEq

/-- Result of handling a single event: the new counter value and the
actions performed, or a panic (a failed `expect`) with the actions that
happened before the panic's `add_watch` attempt included. -/
inductive StepResult
  | ok (count : Nat) (acts : List Action)
  | fatal (msg : String) (acts : List Action)
deriving Repr, DecidableEq

/-- The body of `for event in events` in `monitor_log` (lines 60-77):
`modified` prints and increments; `attribChanged` prints, removes and
re-adds the watch on `config.log.path`, then increments; `deleted` prints,
sleeps 1000 ms, removes and re-adds the watch, and does not increment.
A failed re-add is `expect`-ed, i.e. a panic. -/
def processEvent (cfg : Config) (count : Nat) (e : ChangeEvent) : StepResult :=
  match e.kind with
  | .modified => .ok (count + 1) [.printed]
  | .attribChanged =>
      if e.armOk then
        .ok (count + 1) [.printed, .rmWatch e.wd, .addWatch cfg.log.path]
      else
        .fatal "Failed to add inotify watch"
          [.printed, .rmWatch e.wd, .addWatch cfg.log.path]
  | .deleted =>
      if e.armOk then
        .ok count [.printed, .slept 1000, .rmWatch e.wd, .addWatch cfg.log.path]
      else
        .fatal "Failed to add inotify watch"
          [.printed, .slept 1000, .rmWatch e.wd, .addWatch cfg.log.path]

/-- Folding the event handler over one batch of events, stopping at the
first panic, and returning the final counter value. -/
def processBatch (cfg : Config) (count : Nat) : List ChangeEvent → Except String Nat
  | [] => .ok count
  | e :: rest =>
      match processEvent cfg count e with
      | .ok c _ => processBatch cfg c rest
      | .fatal m _ => .error m

/-- The mutable state of `monitor_log`: `count` and `last_time`. -/
structure MonitorState where
  count : Nat
  lastTime : Int
deriving Repr, DecidableEq

/-- State at loop entry: `count = 0`, `last_time = Local::now()` (lines
54-55). -/
def initState (t0 : Int) : MonitorState := ⟨0, t0⟩

/-- Outcome of `send_email`: either a panic (from `build().unwrap()` or
`SmtpClient::new_simple(..).unwrap()`), or normal completion carrying
whether the transport send succeeded. A send failure is only printed;
completion does not depend on it. -/
inductive SendResult
  | panicked (msg : String)
  | completed (sendOk : Bool)
deriving Repr, DecidableEq

/-- The function `send_email` (lines 88-113) with the three fallible
external steps as oracle inputs: message composition, SMTP client
construction, and the transport send. -/
def send_email (composeOk smtpOk sendOk : Bool) : SendResult :=
  if composeOk = false then .panicked "email build unwrap failed"
  else if smtpOk = false then .panicked "SmtpClient new_simple unwrap failed"
  else .completed sendOk

/-- Oracle inputs for one iteration of the `loop` in `monitor_log`: the
outcome of the blocking read, the batch of events it returned, the wall
clock value read in the fire-condition check (line 80), the `send_email`
oracle outcomes, and the wall clock value read after the send (line 83). -/
structure BatchInput where
  readOk : Bool
  events : List ChangeEvent
  checkTime : Int
  composeOk : Bool
  smtpOk : Bool
  sendOk : Bool
  resetTime : Int
deriving Repr, DecidableEq

/-- The fire condition of lines 79-80:
`count >= count_threshold as usize && now - last_time >= time_threshold`. -/
def fireCond (cfg : Config) (count : Nat) (lastTime now : Int) : Bool :=
  decide (i32_as_usize cfg.email.count_threshold ≤ count) &&
    decide (cfg.email.time_threshold ≤ now - lastTime)

/-- Result of one loop iteration: either the next state together with
whether an alert dispatch happened, or a panic; `fired` records whether
the fire condition had already been found true when the panic occurred. -/
inductive IterResult
  | next (st : MonitorState) (fired : Bool)
  | fatal (msg : String) (fired : Bool)
deriving Repr, DecidableEq

/-- One iteration of the `loop` in `monitor_log` (lines 56-85): read a
batch (an `expect`, so a failed read panics), run the event handler over
the whole batch, then evaluate the fire condition once; if it holds, call
`send_email` and reset `count = 0`, `last_time = now`. -/
def loopIter (cfg : Config) (st : MonitorState) (b : BatchInput) : IterResult :=
  if b.readOk = false then .fatal "Failed to read inotify events" false
  else
    match processBatch cfg st.count b.events with
    | .error m => .fatal m false
    | .ok c =>
        if fireCond cfg c st.lastTime b.checkTime then
          match send_email b.composeOk b.smtpOk b.sendOk with
          | .panicked m => .fatal m true
          | .completed _ => .next ⟨0, b.resetTime⟩ true
        else .next ⟨c, st.lastTime⟩ false

/-- Number of alert dispatches in one iteration. -/
def dispatchCount : IterResult → Nat
  | .next _ f => if f then 1 else 0
  | .fatal _ f => if f then 1 else 0

/-- Running the monitor loop over a list of iteration inputs, recording
for each completed alert dispatch the pair (check-time wall clock,
post-send wall clock). A panic ends the run. -/
def runMonitor (cfg : Config) : MonitorState → List BatchInput → List (Int × Int)
  | _, [] => []
  | st, b :: rest =>
      match loopIter cfg st b with
      | .fatal _ _ => []
      | .next st' fired =>
          (if fired then [(b.checkTime, b.resetTime)] else []) ++
            runMonitor cfg st' rest

/-- Adjacent-alert separation: in a chronologically ordered alert list,
each alert's check time exceeds the previous alert's post-send reset time
by at least `tt`. -/
def alertsSeparated (tt : Int) : List (Int × Int) → Bool
  | [] => true
  | [_] => true
  | (_, r1) :: (c2, r2) :: rest =>
      decide (tt ≤ c2 - r1) && alertsSeparated tt ((c2, r2) :: rest)

/-- Head gap: the first alert in the list (if any) fired at least `tt`
after the given last-alert timestamp. -/
def headGap (tt lastTime : Int) : List (Int × Int) → Prop
  | [] => True
  | (c, _) :: _ => tt ≤ c - lastTime

/-- Events of a batch that increment the counter (everything except the
`deleted` class). -/
def countedEvents (evs : List ChangeEvent) : Nat :=
  (evs.filter (fun e => e.kind ≠ .deleted)).length

/-- Total number of counter-incrementing events across a run's batches. -/
def countedInBatches (batches : List BatchInput) : Nat :=
  (batches.map (fun b => countedEvents b.events)).sum

/-- An event whose handling increments the counter without panicking:
a modification, or an attribute change whose re-arm succeeds. -/
def countedEvent (e : ChangeEvent) : Bool :=
  e.kind == .modified || (e.kind == .attribChanged && e.armOk)

/-- Startup of `monitor_log` (lines 50-52): `Inotify::init().expect(..)`
then `add_watch(..).expect(..)`; returns the panic message if either
fails. -/
def monitorStartup (initOk armOk : Bool) : Option String :=
  if initOk = false then some "Failed to initialize inotify"
  else if armOk = false then some "Failed to add inotify watch"
  else none

/-- Outcome of `read_configuration` (lines 115-119): a failed file open is
propagated with `?`, but a failed parse is `unwrap`-ed, i.e. a panic. The
file-open and parse outcomes are oracle inputs. -/
inductive ReadConfigResult
  | ok (c : Config)
  | err
  | panicked
deriving Repr, DecidableEq

/-- The function `read_configuration`. -/
def read_configuration (fileOpens : Bool) (parsed : Option Config) : ReadConfigResult :=
  if fileOpens = false then .err
  else
    match parsed with
    | some c => .ok c
    | none => .panicked

/-- Outcome of `main` before the monitor loop. -/
inductive MainStart
  | enterLoop (c : Config)
  | exitPrinted (code : Nat)
  | panicked
deriving Repr, DecidableEq

/-- The function `main` (lines 36-46): on `Ok` enter the monitor loop, on
`Err` print the error and `exit(1)`; a panic inside `read_configuration`
never reaches the `Err` branch. -/
def mainStartup (fileOpens : Bool) (parsed : Option Config) : MainStart :=
  match read_configuration fileOpens parsed with
  | .ok c => .enterLoop c
  | .err => .exitPrinted 1
  | .panicked => .panicked

/-- A scalar YAML value, as far as the `EmailConfig` fields need. -/
inductive YamlVal
  | str (s : String)
  | int (n : Int)
deriving Repr, DecidableEq

/-- First binding of a key in a YAML mapping. -/
def lookupKey (fields : List (String × YamlVal)) (k : String) : Option YamlVal :=
  match fields with
  | [] => none
  | (k', v) :: rest => if k' = k then some v else lookupKey rest k

/-- Deserializing a YAML scalar as a Rust `String`. -/
def asString : YamlVal → Option String
  | .str s => some s
  | _ => none

/-- Deserializing a YAML scalar as a Rust `i32`. -/
def asI32 : YamlVal → Option Int
  | .int n => if -(2:Int) ^ 31 ≤ n ∧ n < (2:Int) ^ 31 then some n else none
  | _ => none

/-- Deserializing a YAML scalar as a Rust `i64`. -/
def asI64 : YamlVal → Option Int
  | .int n => if -(2:Int) ^ 63 ≤ n ∧ n < (2:Int) ^ 63 then some n else none
  | _ => none

/-- The derived `Deserialize` for `EmailConfig` applied to a YAML mapping:
every declared field must be present with a value of its declared type
(the field for the SMTP endpoint is declared as `stmp`); unknown keys are
ignored. -/
def parseEmailConfig (fields : List (String × YamlVal)) : Option EmailConfig := do
  let u ← (lookupKey fields "username").bind asString
  let p ← (lookupKey fields "password").bind asString
  let s ← (lookupKey fields "stmp").bind asString
  let t ← (lookupKey fields "target").bind asString
  let ct ← (lookupKey fields "count_threshold").bind asI32
  let tt ← (lookupKey fields "time_threshold").bind asI64
  some ⟨u, p, s, t, ct, tt⟩

/-- A concrete configuration used to instantiate theorems. -/
def cfgA : Config :=
  ⟨⟨"syslog", "/var/log/app.log"⟩, ⟨"u@example.com", "pw", "smtp.example.com",
    "ops@example.com", 3, 5000⟩⟩

/-- A concrete configuration with a negative count threshold. -/
def cfgNeg : Config :=
  ⟨⟨"syslog", "/var/log/app.log"⟩, ⟨"u@example.com", "pw", "smtp.example.com",
    "ops@example.com", -5, 0⟩⟩

/-- A concrete modification event. -/
def evMod : ChangeEvent := ⟨.modified, 1, true⟩

/-- A concrete attribute-change event with a successful re-arm. -/
def evAttr : ChangeEvent := ⟨.attribChanged, 1, true⟩

/-- A concrete deletion event with a successful re-arm. -/
def evDel : ChangeEvent := ⟨.deleted, 1, true⟩

/-- Per-batch clock monotonicity: the wall clock read after the send is
not earlier than the one read in the fire-condition check. -/
def timeMono (b : BatchInput) : Bool := decide (b.checkTime ≤ b.resetTime)

/-- A YAML email section using the key `smtp` documented by the spec. -/
def smtpKeyDoc : List (String × YamlVal) :=
  [("username", .str "u@example.com"), ("password", .str "pw"),
   ("smtp", .str "smtp.example.com"), ("target", .str "ops@example.com"),
   ("count_threshold", .int 3), ("time_threshold", .int 5000)]

/-- The same YAML email section with the key `stmp` the source declares. -/
def stmpKeyDoc : List (String × YamlVal) :=
  [("username", .str "u@example.com"), ("password", .str "pw"),
   ("stmp", .str "smtp.example.com"), ("target", .str "ops@example.com"),
   ("count_threshold", .int 3), ("time_threshold", .int 5000)]

/-- C5: a `Deleted` event never increments the counter, and its handler
always sleeps the fixed 1000 ms grace delay before releasing the old
watch handle and attempting to re-add the watch on the configured path;
the attempt is fatal exactly when the oracle re-arm fails. -/
theorem deleted_event_policy (cfg : Config) (c : Nat) (wd : Nat) (armOk : Bool) :
    processEvent cfg c ⟨.deleted, wd, armOk⟩ =
      if armOk then
        .ok c [.printed, .slept 1000, .rmWatch wd, .addWatch cfg.log.path]
      else
        .fatal "Failed to add inotify watch"
          [.printed, .slept 1000, .rmWatch wd, .addWatch cfg.log.path] := by
  cases armOk <;> rfl

/-- C6 counterexample: a failed alert composition is not recovered: the
code unwraps it, so the process panics, refuting the claim that every
composition-or-send failure is logged, swallowed, and survived. -/
theorem send_compose_failure_panics :
    send_email false true true = .panicked "email build unwrap failed" := rfl

/-- C6 amended: only a transport send failure is recovered (the call
completes regardless of the send outcome); a failed message composition
or a failed SMTP client construction panics, terminating the process. -/
theorem send_failure_semantics :
    (∀ sendOk : Bool, send_email true true sendOk = .completed sendOk) ∧
    (∀ smtpOk sendOk : Bool,
      send_email false smtpOk sendOk = .panicked "email build unwrap failed") ∧
    (∀ sendOk : Bool,
      send_email true false sendOk = .panicked "SmtpClient new_simple unwrap failed") :=
  ⟨fun _ => rfl, fun _ _ => rfl, fun _ => rfl⟩

/-- C7 counterexample: a failed re-arm after a `Deleted` event is an
`expect`, hence a panic that terminates the process, refuting the claim
that re-arm registration failure is a non-fatal best-effort retry. -/
theorem rearm_failure_fatal_counterexample :
    processEvent cfgA 0 ⟨.deleted, 1, false⟩ =
      .fatal "Failed to add inotify watch"
        [.printed, .slept 1000, .rmWatch 1, .addWatch cfgA.log.path] := rfl

/-- C7 amended: a watch registration failure terminates the process both
at startup and when re-arming after a deletion (the same fatal `expect`
is used in both places). -/
theorem watch_failure_fatal_everywhere :
    (∀ initOk : Bool, (monitorStartup initOk false).isSome = true) ∧
    (∀ (cfg : Config) (c wd : Nat),
      processEvent cfg c ⟨.deleted, wd, false⟩ =
        .fatal "Failed to add inotify watch"
          [.printed, .slept 1000, .rmWatch wd, .addWatch cfg.log.path]) := by
  constructor
  · intro initOk; cases initOk <;> rfl
  · intro cfg c wd; rfl

/-- C8: a missing configuration file is printed and exits with status 1,
but a configuration file that opens and fails to parse panics inside
`read_configuration` (the parse result is unwrapped), so the process
aborts without reaching the print-and-exit-1 branch of `main`. -/
theorem config_parse_failure_panics :
    mainStartup false none = .exitPrinted 1 ∧ mainStartup true none = .panicked :=
  ⟨rfl, rfl⟩

/-- C9 counterexample: an email section using exactly the documented keys,
with `smtp` for the endpoint, fails to parse, because the declared field
of the source struct is spelled `stmp`. -/
theorem smtp_key_fails_counterexample : parseEmailConfig smtpKeyDoc = none := rfl

/-- C9 amended: an email section whose keys are `username`, `password`,
`stmp`, `target`, `count_threshold`, `time_threshold`, with string values
for the first four and in-range integers for the thresholds, parses
successfully into the typed settings object. -/
theorem stmp_key_parses (u p s t : String) (ct tt : Int)
    (h1 : -(2:Int) ^ 31 ≤ ct) (h2 : ct < (2:Int) ^ 31)
    (h3 : -(2:Int) ^ 63 ≤ tt) (h4 : tt < (2:Int) ^ 63) :
    parseEmailConfig
      [("username", .str u), ("password", .str p), ("stmp", .str s),
       ("target", .str t), ("count_threshold", .int ct),
       ("time_threshold", .int tt)] = some ⟨u, p, s, t, ct, tt⟩ := by
  norm_num at h1 h2 h3 h4
  simp [parseEmailConfig, lookupKey, asString, asI32, asI64, h1, h2, h3, h4]

/-- C9 witness: the amended parse succeeds on a concrete document. -/
theorem stmp_key_parses_witness :
    (-(2:Int) ^ 31 ≤ (3:Int) ∧ (3:Int) < (2:Int) ^ 31 ∧
      -(2:Int) ^ 63 ≤ (5000:Int) ∧ (5000:Int) < (2:Int) ^ 63) ∧
    parseEmailConfig stmpKeyDoc =
      some ⟨"u@example.com", "pw", "smtp.example.com", "ops@example.com", 3, 5000⟩ :=
  ⟨⟨by norm_num, by norm_num, by norm_num, by norm_num⟩,
    stmp_key_parses "u@example.com" "pw" "smtp.example.com" "ops@example.com" 3 5000
      (by norm_num) (by norm_num) (by norm_num) (by norm_num)⟩

/-- A batch of two modifications, below the `cfgA` threshold. -/
def batchTwoMods : BatchInput := ⟨true, [evMod, evMod], 100, true, true, true, 101⟩

/-- A batch of nine modifications, crossing the `cfgA` threshold of 3
three times over. -/
def batchNine : BatchInput :=
  ⟨true, List.replicate 9 evMod, 6000, true, true, true, 6001⟩

/-- A firing batch of three modifications checked at time 6000. -/
def batchB1 : BatchInput := ⟨true, [evMod, evMod, evMod], 6000, true, true, true, 6001⟩

/-- A firing batch of three modifications checked at time 12000. -/
def batchB2 : BatchInput := ⟨true, [evMod, evMod, evMod], 12000, true, true, true, 12001⟩

/-- C1: over any events that are modifications or attribute changes with a
successful re-arm (no intervening deletion), the counter grows by exactly
one per event; it is 0 at monitor start, it is 0 right after an alert
dispatch, and a non-firing iteration keeps the post-batch counter. -/
theorem counter_counts_events :
    (∀ (cfg : Config) (c : Nat) (evs : List ChangeEvent),
        evs.all countedEvent = true →
        processBatch cfg c evs = .ok (c + evs.length)) ∧
    (∀ t0 : Int, (initState t0).count = 0) ∧
    (∀ (cfg : Config) (st : MonitorState) (b : BatchInput) (st' : MonitorState),
        loopIter cfg st b = .next st' true → st'.count = 0) ∧
    (∀ (cfg : Config) (st : MonitorState) (b : BatchInput) (st' : MonitorState),
        loopIter cfg st b = .next st' false →
        processBatch cfg st.count b.events = .ok st'.count) := by
  refine ⟨?_, fun _ => rfl, ?_, ?_⟩
  · intro cfg c evs
    induction evs generalizing c with
    | nil => intro _; rfl
    | cons e rest ih =>
      intro h
      rw [List.all_cons, Bool.and_eq_true] at h
      obtain ⟨he, hrest⟩ := h
      cases hk : e.kind with
      | modified =>
        simp only [processBatch, processEvent, hk]
        rw [ih (c + 1) hrest]
        simp only [List.length_cons]
        congr 1
        omega
      | attribChanged =>
        have harm : e.armOk = true := by
          simp [countedEvent, hk] at he
          exact he
        simp only [processBatch, processEvent, hk, harm, if_true]
        rw [ih (c + 1) hrest]
        simp only [List.length_cons]
        congr 1
        omega
      | deleted =>
        exfalso
        simp [countedEvent, hk] at he
  · intro cfg st b st' h
    unfold loopIter at h
    split at h
    · exact absurd h (by simp)
    · split at h
      · exact absurd h (by simp)
      · split at h
        · split at h
          · exact absurd h (by simp)
          · rw [IterResult.next.injEq] at h
            rw [← h.1]
        · rw [IterResult.next.injEq] at h
          exact absurd h.2 (by simp)
  · intro cfg st b st' h
    unfold loopIter at h
    split at h
    · exact absurd h (by simp)
    · rename_i heq
      split at h
      · exact absurd h (by simp)
      · rename_i c hc
        split at h
        · split at h
          · exact absurd h (by simp)
          · rw [IterResult.next.injEq] at h
            exact absurd h.2 (by simp)
        · rw [IterResult.next.injEq] at h
          rw [hc, ← h.1]

/-- C1 witness: concrete instances of the three hypothesis-bearing parts
of the counter theorem. -/
theorem counter_counts_events_witness :
    (([evMod, evAttr].all countedEvent = true) ∧
      processBatch cfgA 0 [evMod, evAttr] = .ok 2) ∧
    ((loopIter cfgA (initState 0) batchB1 = .next ⟨0, 6001⟩ true) ∧
      (⟨0, 6001⟩ : MonitorState).count = 0) ∧
    ((loopIter cfgA (initState 0) batchTwoMods = .next ⟨2, 0⟩ false) ∧
      processBatch cfgA (initState 0).count batchTwoMods.events = .ok 2) :=
  ⟨⟨by decide, counter_counts_events.1 cfgA 0 [evMod, evAttr] (by decide)⟩,
    ⟨by decide,
      counter_counts_events.2.2.1 cfgA (initState 0) batchB1 ⟨0, 6001⟩ (by decide)⟩,
    ⟨by decide,
      counter_counts_events.2.2.2 cfgA (initState 0) batchTwoMods ⟨2, 0⟩ (by decide)⟩⟩

/-- Characterization of one loop iteration when the read succeeds and the
batch processes without a panic: only the once-evaluated fire condition
and the `send_email` outcome decide the next state. -/
theorem loopIter_ok (cfg : Config) (st : MonitorState) (b : BatchInput) (c' : Nat)
    (hread : b.readOk = true)
    (hbatch : processBatch cfg st.count b.events = .ok c') :
    loopIter cfg st b =
      if fireCond cfg c' st.lastTime b.checkTime then
        match send_email b.composeOk b.smtpOk b.sendOk with
        | .panicked m => .fatal m true
        | .completed _ => .next ⟨0, b.resetTime⟩ true
      else .next ⟨c', st.lastTime⟩ false := by
  simp [loopIter, hread, hbatch]

/-- C2: in an iteration whose blocking read succeeds and whose batch
processes without a panic, the number of alert dispatches equals the fire
condition evaluated once on the counter obtained after the entire batch,
and is in particular at most one, however often the batch crossed the
threshold. -/
theorem fire_checked_once_per_batch (cfg : Config) (st : MonitorState)
    (b : BatchInput) (c' : Nat) (hread : b.readOk = true)
    (hbatch : processBatch cfg st.count b.events = .ok c') :
    dispatchCount (loopIter cfg st b) =
      (if fireCond cfg c' st.lastTime b.checkTime then 1 else 0) ∧
    dispatchCount (loopIter cfg st b) ≤ 1 := by
  refine ⟨?_, ?_⟩
  · rw [loopIter_ok cfg st b c' hread hbatch]
    cases hf : fireCond cfg c' st.lastTime b.checkTime with
    | false => simp [hf, dispatchCount]
    | true =>
      simp only [if_true]
      cases send_email b.composeOk b.smtpOk b.sendOk <;> simp [dispatchCount]
  · cases loopIter cfg st b with
    | next st' f => cases f <;> simp [dispatchCount]
    | fatal m f => cases f <;> simp [dispatchCount]

/-- C2 witness: a batch of nine modifications against a threshold of 3
dispatches exactly one alert. -/
theorem fire_checked_once_per_batch_witness :
    (batchNine.readOk = true ∧
      processBatch cfgA (initState 0).count batchNine.events = .ok 9) ∧
    (dispatchCount (loopIter cfgA (initState 0) batchNine) =
        (if fireCond cfgA 9 (initState 0).lastTime batchNine.checkTime then 1 else 0) ∧
      dispatchCount (loopIter cfgA (initState 0) batchNine) ≤ 1) :=
  ⟨⟨rfl, rfl⟩,
    fire_checked_once_per_batch cfgA (initState 0) batchNine 9 rfl rfl⟩

/-- C4: when the fire condition holds after a batch whose composition and
client construction succeed but whose transport send fails, the iteration
still produces a next state (the loop keeps running) with the counter
reset to 0 and the last-alert time refreshed, identical to the iteration
with a successful send. -/
theorem send_failure_still_resets (cfg : Config) (st : MonitorState)
    (evs : List ChangeEvent) (tc tr : Int) (c' : Nat)
    (hbatch : processBatch cfg st.count evs = .ok c')
    (hfire : fireCond cfg c' st.lastTime tc = true) :
    loopIter cfg st ⟨true, evs, tc, true, true, false, tr⟩ = .next ⟨0, tr⟩ true ∧
    loopIter cfg st ⟨true, evs, tc, true, true, false, tr⟩ =
      loopIter cfg st ⟨true, evs, tc, true, true, true, tr⟩ := by
  have hA := loopIter_ok cfg st ⟨true, evs, tc, true, true, false, tr⟩ c' rfl hbatch
  have hB := loopIter_ok cfg st ⟨true, evs, tc, true, true, true, tr⟩ c' rfl hbatch
  rw [hA, hB]
  refine ⟨?_, ?_⟩ <;> simp [hfire, send_email]

/-- C4 witness: a concrete firing batch whose send fails still resets the
state exactly as the successful send does. -/
theorem send_failure_still_resets_witness :
    (processBatch cfgA (initState 0).count [evMod, evMod, evMod] = .ok 3 ∧
      fireCond cfgA 3 (initState 0).lastTime 6000 = true) ∧
    (loopIter cfgA (initState 0) ⟨true, [evMod, evMod, evMod], 6000, true, true, false, 6001⟩ =
        .next ⟨0, 6001⟩ true ∧
      loopIter cfgA (initState 0) ⟨true, [evMod, evMod, evMod], 6000, true, true, false, 6001⟩ =
        loopIter cfgA (initState 0) ⟨true, [evMod, evMod, evMod], 6000, true, true, true, 6001⟩) :=
  ⟨⟨rfl, by decide⟩,
    send_failure_still_resets cfgA (initState 0) [evMod, evMod, evMod] 6000 6001 3 rfl
      (by decide)⟩

/-- A firing iteration resets the state to counter 0 with the post-send
clock, and can only fire when the check clock is at least the time
threshold past the stored last-alert time. -/
theorem loopIter_next_true (cfg : Config) (st : MonitorState) (b : BatchInput)
    (st' : MonitorState) (h : loopIter cfg st b = .next st' true) :
    st' = ⟨0, b.resetTime⟩ ∧
    cfg.email.time_threshold ≤ b.checkTime - st.lastTime := by
  unfold loopIter at h
  split at h
  · exact absurd h (by simp)
  · split at h
    · exact absurd h (by simp)
    · rename_i c hc
      split at h
      · rename_i hf
        split at h
        · exact absurd h (by simp)
        · rw [IterResult.next.injEq] at h
          refine ⟨h.1.symm, ?_⟩
          simp only [fireCond, Bool.and_eq_true, decide_eq_true_eq] at hf
          exact hf.2
      · rw [IterResult.next.injEq] at h
        exact absurd h.2 (by simp)

/-- A non-firing iteration keeps the last-alert time unchanged. -/
theorem loopIter_next_false (cfg : Config) (st : MonitorState) (b : BatchInput)
    (st' : MonitorState) (h : loopIter cfg st b = .next st' false) :
    st'.lastTime = st.lastTime := by
  unfold loopIter at h
  split at h
  · exact absurd h (by simp)
  · split at h
    · exact absurd h (by simp)
    · split at h
      · split at h
        · exact absurd h (by simp)
        · rw [IterResult.next.injEq] at h
          exact absurd h.2 (by simp)
      · rw [IterResult.next.injEq] at h
        rw [← h.1]

/-- Separation holds for a cons whose head's reset time is at least the
threshold before the next alert's check time. -/
theorem alertsSeparated_cons (tt : Int) (c r : Int) (tail : List (Int × Int))
    (hhead : headGap tt r tail) (htail : alertsSeparated tt tail = true) :
    alertsSeparated tt ((c, r) :: tail) = true := by
  cases tail with
  | nil => rfl
  | cons p rest =>
    obtain ⟨c2, r2⟩ := p
    simp only [alertsSeparated, Bool.and_eq_true, decide_eq_true_eq]
    exact ⟨hhead, htail⟩

/-- Separation is inherited by the tail. -/
theorem alertsSeparated_tail (tt : Int) (x : Int × Int) (xs : List (Int × Int))
    (h : alertsSeparated tt (x :: xs) = true) : alertsSeparated tt xs = true := by
  cases xs with
  | nil => rfl
  | cons y ys =>
    obtain ⟨c1, r1⟩ := x
    obtain ⟨c2, r2⟩ := y
    simp only [alertsSeparated, Bool.and_eq_true] at h
    exact h.2

/-- Separation gives the gap bound for any adjacent pair in the list. -/
theorem alertsSeparated_adjacent (tt : Int) :
    ∀ (l1 : List (Int × Int)) (c1 r1 c2 r2 : Int) (l2 : List (Int × Int)),
      alertsSeparated tt (l1 ++ (c1, r1) :: (c2, r2) :: l2) = true → tt ≤ c2 - r1 := by
  intro l1
  induction l1 with
  | nil =>
    intro c1 r1 c2 r2 l2 h
    simp only [List.nil_append, alertsSeparated, Bool.and_eq_true,
      decide_eq_true_eq] at h
    exact h.1
  | cons x l1' ih =>
    intro c1 r1 c2 r2 l2 h
    rw [List.cons_append] at h
    exact ih c1 r1 c2 r2 l2 (alertsSeparated_tail tt x _ h)

/-- Invariant of the monitor run: the first recorded alert fires at least
the time threshold after the stored last-alert time, and the whole alert
list is separation-ordered. -/
theorem runMonitor_invariant (cfg : Config) (batches : List BatchInput) :
    ∀ st : MonitorState,
      headGap cfg.email.time_threshold st.lastTime (runMonitor cfg st batches) ∧
      alertsSeparated cfg.email.time_threshold (runMonitor cfg st batches) = true := by
  induction batches with
  | nil => intro st; exact ⟨trivial, rfl⟩
  | cons b rest ih =>
    intro st
    cases hit : loopIter cfg st b with
    | fatal m f =>
      simp only [runMonitor, hit]
      exact ⟨trivial, rfl⟩
    | next st' fired =>
      cases fired with
      | false =>
        have hlast := loopIter_next_false cfg st b st' hit
        have hIH := ih st'
        rw [hlast] at hIH
        simp only [runMonitor, hit, Bool.false_eq_true, if_false, List.nil_append]
        exact hIH
      | true =>
        obtain ⟨hst, hgap⟩ := loopIter_next_true cfg st b st' hit
        subst hst
        have hIH := ih ⟨0, b.resetTime⟩
        simp only [runMonitor, hit, if_true, List.singleton_append]
        refine ⟨hgap, ?_⟩
        exact alertsSeparated_cons cfg.email.time_threshold b.checkTime b.resetTime
          (runMonitor cfg ⟨0, b.resetTime⟩ rest) hIH.1 hIH.2

/-- Every recorded alert carries the check and reset clocks of one of the
run's batches. -/
theorem runMonitor_mem (cfg : Config) (batches : List BatchInput) :
    ∀ (st : MonitorState) (p : Int × Int), p ∈ runMonitor cfg st batches →
      ∃ b ∈ batches, p = (b.checkTime, b.resetTime) := by
  induction batches with
  | nil =>
    intro st p hp
    exact absurd hp (by simp [runMonitor])
  | cons b rest ih =>
    intro st p hp
    cases hit : loopIter cfg st b with
    | fatal m f =>
      rw [runMonitor, hit] at hp
      exact absurd hp (by simp)
    | next st' fired =>
      rw [runMonitor, hit] at hp
      rw [List.mem_append] at hp
      cases hp with
      | inl hin =>
        cases fired with
        | false => exact absurd hin (by simp)
        | true =>
          refine ⟨b, List.mem_cons_self b rest, ?_⟩
          simpa using hin
      | inr hin =>
        obtain ⟨b', hb', hpe⟩ := ih st' p hin
        exact ⟨b', List.mem_cons_of_mem b hb', hpe⟩

/-- C3: along any run whose per-batch clock reads are monotone, any two
adjacently recorded alert dispatches are at least the time threshold
apart: the later alert's check time exceeds both the reset time and the
check time of the earlier alert by at least `time_threshold`. -/
theorem alerts_time_separated (cfg : Config) (st : MonitorState)
    (batches : List BatchInput) (hmono : batches.all timeMono = true)
    (l1 l2 : List (Int × Int)) (c1 r1 c2 r2 : Int)
    (heq : runMonitor cfg st batches = l1 ++ (c1, r1) :: (c2, r2) :: l2) :
    cfg.email.time_threshold ≤ c2 - r1 ∧ cfg.email.time_threshold ≤ c2 - c1 := by
  have hsep := (runMonitor_invariant cfg batches st).2
  rw [heq] at hsep
  have h1 := alertsSeparated_adjacent cfg.email.time_threshold l1 c1 r1 c2 r2 l2 hsep
  have hm : (c1, r1) ∈ runMonitor cfg st batches := by
    rw [heq]
    simp
  obtain ⟨bb, hbb, hpe⟩ := runMonitor_mem cfg batches st (c1, r1) hm
  have hmb : timeMono bb = true := by
    rw [List.all_eq_true] at hmono
    exact hmono bb hbb
  rw [Prod.mk.injEq] at hpe
  have hcr : c1 ≤ r1 := by
    rw [hpe.1, hpe.2]
    simpa [timeMono] using hmb
  exact ⟨h1, by omega⟩

/-- C3 witness: two firing batches of a concrete run are separated by the
5000 ms threshold. -/
theorem alerts_time_separated_witness :
    ([batchB1, batchB2].all timeMono = true ∧
      runMonitor cfgA (initState 0) [batchB1, batchB2] =
        [] ++ (6000, 6001) :: (12000, 12001) :: []) ∧
    (cfgA.email.time_threshold ≤ 12000 - 6001 ∧
      cfgA.email.time_threshold ≤ 12000 - 6000) :=
  ⟨⟨by decide, by decide⟩,
    alerts_time_separated cfgA (initState 0) [batchB1, batchB2] (by decide)
      [] [] 6000 6001 12000 12001 (by decide)⟩

/-- Counting contribution of one event: everything but a deletion. -/
theorem countedEvents_cons (e : ChangeEvent) (rest : List ChangeEvent) :
    countedEvents (e :: rest) =
      (if e.kind = .deleted then 0 else 1) + countedEvents rest := by
  by_cases hk : e.kind = .deleted
  · simp [countedEvents, List.filter_cons, hk]
  · simp [countedEvents, List.filter_cons, hk]
    omega

/-- A batch that processes without a panic grows the counter by exactly
its number of non-deletion events. -/
theorem processBatch_ok_count (cfg : Config) :
    ∀ (evs : List ChangeEvent) (c c' : Nat),
      processBatch cfg c evs = .ok c' → c' = c + countedEvents evs := by
  intro evs
  induction evs with
  | nil =>
    intro c c' h
    simp only [processBatch, Except.ok.injEq] at h
    simp [countedEvents, ← h]
  | cons e rest ih =>
    intro c c' h
    rw [countedEvents_cons]
    cases hk : e.kind with
    | modified =>
      simp only [processBatch, processEvent, hk] at h
      have hrec := ih (c + 1) c' h
      simp [hk]
      omega
    | attribChanged =>
      cases ha : e.armOk with
      | true =>
        simp only [processBatch, processEvent, hk, ha, if_true] at h
        have hrec := ih (c + 1) c' h
        simp [hk]
        omega
      | false =>
        simp [processBatch, processEvent, hk, ha] at h
    | deleted =>
      cases ha : e.armOk with
      | true =>
        simp only [processBatch, processEvent, hk, ha, if_true] at h
        have hrec := ih c c' h
        simp [hk]
        omega
      | false =>
        simp [processBatch, processEvent, hk, ha] at h

/-- An iteration whose post-batch counter is below the cast threshold
never fires and keeps the last-alert time. -/
theorem loopIter_no_fire (cfg : Config) (st : MonitorState) (b : BatchInput) (c' : Nat)
    (hread : b.readOk = true)
    (hbatch : processBatch cfg st.count b.events = .ok c')
    (hlt : c' < i32_as_usize cfg.email.count_threshold) :
    loopIter cfg st b = .next ⟨c', st.lastTime⟩ false := by
  have hf : fireCond cfg c' st.lastTime b.checkTime = false := by
    have hnot : ¬ (i32_as_usize cfg.email.count_threshold ≤ c') := by omega
    simp [fireCond, hnot]
  rw [loopIter_ok cfg st b c' hread hbatch, hf]
  rfl

/-- A run whose total of counting events stays below the cast threshold
records no alert at all. -/
theorem runMonitor_no_fire (cfg : Config) :
    ∀ (batches : List BatchInput) (st : MonitorState),
      st.count + countedInBatches batches < i32_as_usize cfg.email.count_threshold →
      runMonitor cfg st batches = [] := by
  intro batches
  induction batches with
  | nil => intro st h; rfl
  | cons b rest ih =>
    intro st h
    have hC : countedInBatches (b :: rest) =
        countedEvents b.events + countedInBatches rest := by
      simp [countedInBatches]
    rw [hC] at h
    by_cases hr : b.readOk = true
    · cases hpb : processBatch cfg st.count b.events with
      | error m =>
        have hfat : loopIter cfg st b = .fatal m false := by
          unfold loopIter
          rw [if_neg (by simp [hr]), hpb]
        simp [runMonitor, hfat]
      | ok c' =>
        have hcount := processBatch_ok_count cfg b.events st.count c' hpb
        have hlt : c' < i32_as_usize cfg.email.count_threshold := by omega
        have hit := loopIter_no_fire cfg st b c' hr hpb hlt
        simp only [runMonitor, hit, Bool.false_eq_true, if_false, List.nil_append]
        exact ih ⟨c', st.lastTime⟩
          (by show c' + countedInBatches rest < i32_as_usize cfg.email.count_threshold
              omega)
    · have hro : b.readOk = false := by simp at hr; exact hr
      have hfat : loopIter cfg st b = .fatal "Failed to read inotify events" false := by
        unfold loopIter
        rw [if_pos hro]
      simp [runMonitor, hfat]

/-- C10: a negative `count_threshold` value `t` is cast by `as usize` to
the wrapped value 2^64 + t, and any run in which fewer counting events
than that ever accumulate records no alert dispatch at all. -/
theorem negative_threshold_never_fires (cfg : Config)
    (hlo : -(2:Int) ^ 31 ≤ cfg.email.count_threshold)
    (hneg : cfg.email.count_threshold < 0) :
    i32_as_usize cfg.email.count_threshold =
      ((2:Int) ^ 64 + cfg.email.count_threshold).toNat ∧
    ∀ (st : MonitorState) (batches : List BatchInput),
      st.count + countedInBatches batches <
          ((2:Int) ^ 64 + cfg.email.count_threshold).toNat →
      runMonitor cfg st batches = [] := by
  have hcast : i32_as_usize cfg.email.count_threshold =
      ((2:Int) ^ 64 + cfg.email.count_threshold).toNat := by
    unfold i32_as_usize
    congr 1
    have h31 : (2:Int) ^ 31 = 2147483648 := by norm_num
    have h64 : (2:Int) ^ 64 = 18446744073709551616 := by norm_num
    rw [h64]
    rw [h31] at hlo
    omega
  refine ⟨hcast, ?_⟩
  intro st batches hbound
  refine runMonitor_no_fire cfg batches st ?_
  rw [hcast]
  exact hbound

/-- C10 witness: with threshold -5 the cast wraps to 2^64 - 5 and a small
concrete run dispatches nothing. -/
theorem negative_threshold_never_fires_witness :
    (-(2:Int) ^ 31 ≤ cfgNeg.email.count_threshold ∧
      cfgNeg.email.count_threshold < 0 ∧
      (initState 0).count + countedInBatches [batchTwoMods] <
        ((2:Int) ^ 64 + cfgNeg.email.count_threshold).toNat) ∧
    (i32_as_usize cfgNeg.email.count_threshold =
        ((2:Int) ^ 64 + cfgNeg.email.count_threshold).toNat ∧
      runMonitor cfgNeg (initState 0) [batchTwoMods] = []) :=
  ⟨⟨by norm_num [cfgNeg], by norm_num [cfgNeg], by decide⟩,
    ⟨(negative_threshold_never_fires cfgNeg (by norm_num [cfgNeg])
        (by norm_num [cfgNeg])).1,
      (negative_threshold_never_fires cfgNeg (by norm_num [cfgNeg])
        (by norm_num [cfgNeg])).2 (initState 0) [batchTwoMods] (by decide)⟩⟩

end LogAlarmer
